import Mathlib

/-!
Verification of the transactional store in `lib/db/db.go` of the kudos
repository.  The store keeps a JSON document in `<dir>/data`, guarded by a
lock-sentinel file `<dir>/lock`; commits stage the new contents in
`<dir>/data.tmp`, sync it, and atomically rename it over the live file.

The embedding below models the filesystem as an association list from path
strings to abstract file contents, and every fallible external operation
(lock acquisition, file open/create, JSON encode/decode, sync, rename,
unlock) as an operation whose failure can be injected through a `Faults`
record.  Each filesystem-effecting primitive also appends an event to a
trace, so that ordering properties (sync before rename, unlock after
rename) can be stated about the code's behaviour.
-/

namespace KudosDB

/-- File-name constants.  Modelled from the spec: the `config` package
(`config.DBFileName`, `config.DBTempFileName`, `config.DBLockFileName`) is
not part of the sources; the spec's directory layout names the files
`data`, `data.tmp` and `lock`. -/
def DBFileName : String := "data"

/-- Modelled from the spec: the staging file used during commit. -/
def DBTempFileName : String := "data.tmp"

/-- Modelled from the spec: the lock sentinel file. -/
def DBLockFileName : String := "lock"

/-- Model of Go `filepath.IsAbs` on Unix: the path starts with a slash. -/
def isAbs (p : String) : Bool :=
  match p.data with
  | [] => false
  | c :: _ => c = '/'

/-- Model of Go `filepath.Join dir name` (path cleaning is irrelevant for
the properties considered here). -/
def fjoin (dir name : String) : String := dir ++ "/" ++ name

/-- Abstract contents of a file, for payload type `α`:
`empty` is a freshly created/truncated file before anything is encoded
into it; `envelope` is a well-formed serialized `db` object (the Go struct
`db` of db.go with fields Version, Commit, optional UID, Time and the
caller's payload in field DB); `corrupt` is any byte content that does not
decode as an envelope of `α`. -/
inductive FileData (α : Type) where
  | empty : FileData α
  | envelope (version commit : String) (uid : Option String) (time : Nat)
      (payload : α) : FileData α
  | corrupt : FileData α
deriving DecidableEq, Repr

/-- The filesystem: an association list from paths to file contents, plus
the held-state of the directory's advisory lock.  The lock sentinel's
*held* state (not its existence) is what matters, so it is modelled as a
boolean rather than as a file. -/
structure FS (α : Type) where
  files : List (String × FileData α)
  lockHeld : Bool
deriving DecidableEq, Repr

/-- Lookup in an association list of files. -/
def lookupFD {α : Type} : List (String × FileData α) → String → Option (FileData α)
  | [], _ => none
  | e :: rest, p => if e.1 = p then some e.2 else lookupFD rest p

/-- Insert/replace in an association list of files. -/
def setFD {α : Type} : List (String × FileData α) → String → FileData α →
    List (String × FileData α)
  | [], p, d => [(p, d)]
  | e :: rest, p, d => if e.1 = p then (p, d) :: rest else e :: setFD rest p d

/-- Remove a path from an association list of files. -/
def removeFD {α : Type} : List (String × FileData α) → String → List (String × FileData α)
  | [], _ => []
  | e :: rest, p => if e.1 = p then removeFD rest p else e :: removeFD rest p

/-- Contents of the file at `p`, if it exists. -/
def FS.get {α : Type} (fs : FS α) (p : String) : Option (FileData α) :=
  lookupFD fs.files p

/-- Write contents `d` to the file at `p` (creating it if absent). -/
def FS.set {α : Type} (fs : FS α) (p : String) (d : FileData α) : FS α :=
  { fs with files := setFD fs.files p d }

/-- Delete the file at `p`. -/
def FS.remove {α : Type} (fs : FS α) (p : String) : FS α :=
  { fs with files := removeFD fs.files p }

/-- Model of a successful `os.Rename src dst`: the contents of `src` move
to `dst`, replacing whatever was there; `src` disappears. -/
def FS.rename {α : Type} (fs : FS α) (src dst : String) : FS α :=
  match fs.get src with
  | none => fs
  | some d => (fs.remove src).set dst d

/-- Injectable failures for every fallible external operation used by
db.go.  `lockNewErr` is `lockfile.New` returning an error (db.go panics on
it); `tryLockErr` is an I/O error from `lock.TryLockN` (as opposed to the
lock merely being busy, which is the pre-state's `lockHeld`). -/
structure Faults where
  lockNewErr : Bool
  tryLockErr : Bool
  openErr : Bool
  decodeErr : Bool
  createErr : Bool
  encodeErr : Bool
  syncErr : Bool
  renameErr : Bool
  unlockErr : Bool
deriving DecidableEq, Repr

/-- No injected failures. -/
def noFaults : Faults := ⟨false, false, false, false, false, false, false, false, false⟩

/-- The errors db.go can return, one constructor per distinct error site:
`needAbsPath` and `lockFailed` are the exported sentinels `ErrNeedAbsPath`
and `ErrLockFailed`; the others correspond to the raw or `fmt.Errorf`-
wrapped errors of the individual operations. -/
inductive DBError where
  | needAbsPath
  | lockFailed
  | acquireLock
  | ioOpen
  | unmarshal
  | ioCreate
  | marshalEncode
  | marshalSync
  | atomicUpdate
  | releaseLock
deriving DecidableEq, Repr

/-- The message text each error surfaces with, mirroring the `errors.New`
and `fmt.Errorf` format strings of db.go (the text of the wrapped
underlying error is abstracted). -/
def DBError.message : DBError → String
  | .needAbsPath => "need absolute path"
  | .lockFailed => "could not acquire lock"
  | .acquireLock => "acquire lock: <err>"
  | .ioOpen => "<io err>"
  | .unmarshal => "unmarshal from file: <err>"
  | .ioCreate => "<io err>"
  | .marshalEncode => "marshal to file: <err>"
  | .marshalSync => "marshal to file: <err>"
  | .atomicUpdate => "atomically update: <err>"
  | .releaseLock => "release lock: <err>"

/-- Ambient environment read by `getDBObj`: the build's version and commit
strings, the current user's UID (`none` when `user.Current` fails) and the
current time. -/
structure Env where
  version : String
  commit : String
  uid : Option String
  now : Nat
deriving DecidableEq, Repr

/-- db.go's `getDBObj`: wrap the payload in a `db` envelope carrying
version, commit, the UID when resolvable, and the current time. -/
def getDBObj {α : Type} (env : Env) (v : α) : FileData α :=
  .envelope env.version env.commit env.uid env.now v

/-- Events recorded by the filesystem-effecting primitives, each tagged
with whether the operation succeeded. -/
inductive Ev where
  | tryLock (ok : Bool)
  | create (p : String) (ok : Bool)
  | encode (p : String) (ok : Bool)
  | sync (p : String) (ok : Bool)
  | rename (src dst : String) (ok : Bool)
  | unlock (ok : Bool)
deriving DecidableEq, Repr

/-- Model of `lock.Unlock()`: on success the lock is released; on an
injected failure the lock stays held (the directory is wedged). -/
def unlockFS {α : Type} (f : Faults) (fs : FS α) : FS α × Ev :=
  if f.unlockErr then (fs, .unlock false) else ({ fs with lockHeld := false }, .unlock true)

/-- Model of decoding a file's bytes into `&db{DB: marshaler{v}}`: only a
well-formed envelope decodes (yielding its payload); the metadata fields
are decoded and thrown away.  `decodeErr` injects a payload-level
unmarshal failure. -/
def decodeDB {α : Type} (f : Faults) (d : FileData α) : Option α :=
  match d with
  | .envelope _ _ _ _ p => if f.decodeErr then none else some p
  | _ => none

/-- The read phase shared by `Open` and `Read`: `os.Open` the live file
(failing if it is missing or on an injected open error), then decode it. -/
def openAndDecode {α : Type} (f : Faults) (fs : FS α) (dbpath : String) :
    Except DBError α :=
  match fs.get dbpath with
  | none => .error .ioOpen
  | some d =>
    if f.openErr then .error .ioOpen
    else
      match decodeDB f d with
      | none => .error .unmarshal
      | some p => .ok p

/-- The state captured by db.go's `Committer` closure: the directory path
and the `done` flag guarding against a second invocation. -/
structure Committer where
  path : String
  done : Bool
deriving DecidableEq, Repr

/-- Result of invoking a `Committer`: either the Go `panic("db: Committer
called twice")`, or a normal return carrying `some` error or `none`. -/
inductive CommitRes where
  | panicked
  | ret (e : Option DBError)
deriving DecidableEq, Repr

/-- Full outcome of a `Committer` invocation: the result, the committer's
state afterwards (its `done` flag), the filesystem, and the event trace of
the invocation. -/
structure CommitOut (α : Type) where
  res : CommitRes
  c : Committer
  fs : FS α
  trace : List Ev
deriving DecidableEq, Repr

/-- The write phase of a commit (db.go lines 171-191): nothing for a nil
value; otherwise create the temp file, encode the envelope into it, sync
it, and rename it over the live file, stopping at the first failure with
that operation's error. -/
def writePhase {α : Type} (f : Faults) (env : Env) (path : String) (fs : FS α) :
    Option α → Option DBError × FS α × List Ev
  | none => (none, fs, [])
  | some x =>
    if f.createErr then
      (some .ioCreate, fs, [.create (fjoin path DBTempFileName) false])
    else if f.encodeErr then
      (some .marshalEncode, fs.set (fjoin path DBTempFileName) .empty,
        [.create (fjoin path DBTempFileName) true, .encode (fjoin path DBTempFileName) false])
    else if f.syncErr then
      (some .marshalSync,
        (fs.set (fjoin path DBTempFileName) .empty).set (fjoin path DBTempFileName) (getDBObj env x),
        [.create (fjoin path DBTempFileName) true, .encode (fjoin path DBTempFileName) true,
         .sync (fjoin path DBTempFileName) false])
    else if f.renameErr then
      (some .atomicUpdate,
        (fs.set (fjoin path DBTempFileName) .empty).set (fjoin path DBTempFileName) (getDBObj env x),
        [.create (fjoin path DBTempFileName) true, .encode (fjoin path DBTempFileName) true,
         .sync (fjoin path DBTempFileName) true,
         .rename (fjoin path DBTempFileName) (fjoin path DBFileName) false])
    else
      (none,
        ((fs.set (fjoin path DBTempFileName) .empty).set (fjoin path DBTempFileName)
          (getDBObj env x)).rename (fjoin path DBTempFileName) (fjoin path DBFileName),
        [.create (fjoin path DBTempFileName) true, .encode (fjoin path DBTempFileName) true,
         .sync (fjoin path DBTempFileName) true,
         .rename (fjoin path DBTempFileName) (fjoin path DBFileName) true])

/-- The deferred lock release of the commit path (db.go lines 161-169):
`lock.Unlock()` runs after the write phase; its error is returned only if
the write phase did not already produce an error. -/
def finishCommit {α : Type} (f : Faults) (w : Option DBError × FS α × List Ev)
    (c : Committer) : CommitOut α :=
  if f.unlockErr then
    ⟨.ret (match w.1 with | some e => some e | none => some .releaseLock),
      c, w.2.1, w.2.2 ++ [.unlock false]⟩
  else
    ⟨.ret w.1, c, { w.2.1 with lockHeld := false }, w.2.2 ++ [.unlock true]⟩

/-- Invocation of db.go's `Committer` closure (lines 156-193): a CAS on
the `done` flag panics on a second call before doing anything; otherwise
the write phase runs (only for a non-nil value) and the deferred unlock
finishes the call. -/
def Committer.call {α : Type} (c : Committer) (f : Faults) (env : Env) (fs : FS α)
    (v : Option α) : CommitOut α :=
  if c.done then ⟨.panicked, c, fs, []⟩
  else finishCommit f (writePhase f env c.path fs v) { c with done := true }

/-- Result of `Open`: the panic on a `lockfile.New` error, an error
return, or success carrying the decoded target and the commit closure. -/
inductive OpenRes (α : Type) where
  | panicked
  | err (e : DBError)
  | ok (target : α) (c : Committer)
deriving DecidableEq, Repr

/-- Full outcome of `Open`: result, filesystem afterwards, event trace. -/
structure OpenOut (α : Type) where
  res : OpenRes α
  fs : FS α
  trace : List Ev
deriving DecidableEq, Repr

/-- db.go's `Open` (lines 110-195): reject non-absolute paths; panic if
`lockfile.New` errors; surface a `TryLockN` I/O error as `acquire lock:`;
return `ErrLockFailed` when the lock is busy; after acquiring the lock,
open and decode the live file, releasing the lock (error ignored) via the
deferred conditional unlock if that fails; on success return the decoded
target and a fresh one-shot committer. -/
def Open {α : Type} (f : Faults) (path : String) (fs : FS α) : OpenOut α :=
  if isAbs path = false then ⟨.err .needAbsPath, fs, []⟩
  else if f.lockNewErr then ⟨.panicked, fs, []⟩
  else if f.tryLockErr then ⟨.err .acquireLock, fs, [.tryLock false]⟩
  else if fs.lockHeld then ⟨.err .lockFailed, fs, [.tryLock false]⟩
  else
    match openAndDecode f { fs with lockHeld := true } (fjoin path DBFileName) with
    | .error e =>
      ⟨.err e, (unlockFS f { fs with lockHeld := true }).1,
        [.tryLock true, (unlockFS f { fs with lockHeld := true }).2]⟩
    | .ok p => ⟨.ok p ⟨path, false⟩, { fs with lockHeld := true }, [.tryLock true]⟩

/-- db.go's `Read` (lines 205-221): no absolute-path check and no lock;
just open the live file under the (possibly relative) joined path and
decode it. -/
def Read {α : Type} (f : Faults) (path : String) (fs : FS α) : Except DBError α :=
  openAndDecode f fs (fjoin path DBFileName)

/-- Full outcome of `Init`: `some` error or `none`, filesystem, trace. -/
structure InitOut (α : Type) where
  res : Option DBError
  fs : FS α
  trace : List Ev
deriving DecidableEq, Repr

/-- db.go's `Init` (lines 235-258): reject non-absolute paths; then
`os.Create` the live file directly (truncating any existing one — no lock,
no temp file, no rename), encode the envelope into it and sync it. -/
def Init {α : Type} (f : Faults) (env : Env) (v : α) (path : String) (fs : FS α) :
    InitOut α :=
  if isAbs path = false then ⟨some .needAbsPath, fs, []⟩
  else if f.createErr then ⟨some .ioCreate, fs, [.create (fjoin path DBFileName) false]⟩
  else if f.encodeErr then
    ⟨some .marshalEncode, fs.set (fjoin path DBFileName) .empty,
      [.create (fjoin path DBFileName) true, .encode (fjoin path DBFileName) false]⟩
  else if f.syncErr then
    ⟨some .marshalSync,
      (fs.set (fjoin path DBFileName) .empty).set (fjoin path DBFileName) (getDBObj env v),
      [.create (fjoin path DBFileName) true, .encode (fjoin path DBFileName) true,
       .sync (fjoin path DBFileName) false]⟩
  else
    ⟨none,
      (fs.set (fjoin path DBFileName) .empty).set (fjoin path DBFileName) (getDBObj env v),
      [.create (fjoin path DBFileName) true, .encode (fjoin path DBFileName) true,
       .sync (fjoin path DBFileName) true]⟩

/-! ### Basic lemmas about the filesystem model -/

theorem lookupFD_setFD_self {α : Type} (l : List (String × FileData α)) (p : String)
    (d : FileData α) : lookupFD (setFD l p d) p = some d := by
  induction l with
  | nil => simp [setFD, lookupFD]
  | cons e rest ih =>
    by_cases h : e.1 = p
    · simp [setFD, h, lookupFD]
    · simp [setFD, h, lookupFD, ih]

theorem lookupFD_setFD_ne {α : Type} (l : List (String × FileData α)) (p q : String)
    (d : FileData α) (h : p ≠ q) : lookupFD (setFD l p d) q = lookupFD l q := by
  induction l with
  | nil => simp [setFD, lookupFD, h]
  | cons e rest ih =>
    by_cases he : e.1 = p
    · simp [setFD, he, lookupFD, h, he ▸ h]
    · simp [setFD, he, lookupFD, ih]

theorem lookupFD_removeFD_self {α : Type} (l : List (String × FileData α)) (p : String) :
    lookupFD (removeFD l p) p = none := by
  induction l with
  | nil => simp [removeFD, lookupFD]
  | cons e rest ih =>
    by_cases h : e.1 = p
    · simp [removeFD, h, ih]
    · simp [removeFD, h, lookupFD, ih]

theorem lookupFD_removeFD_ne {α : Type} (l : List (String × FileData α)) (p q : String)
    (h : p ≠ q) : lookupFD (removeFD l p) q = lookupFD l q := by
  induction l with
  | nil => simp [removeFD]
  | cons e rest ih =>
    by_cases he : e.1 = p
    · simp [removeFD, he, lookupFD, ih, h]
    · simp [removeFD, he, lookupFD, ih]

theorem FS.get_set_self {α : Type} (fs : FS α) (p : String) (d : FileData α) :
    (fs.set p d).get p = some d := lookupFD_setFD_self fs.files p d

theorem FS.get_set_ne {α : Type} (fs : FS α) (p q : String) (d : FileData α)
    (h : p ≠ q) : (fs.set p d).get q = fs.get q := lookupFD_setFD_ne fs.files p q d h

theorem FS.get_remove_self {α : Type} (fs : FS α) (p : String) :
    (fs.remove p).get p = none := lookupFD_removeFD_self fs.files p

theorem FS.get_remove_ne {α : Type} (fs : FS α) (p q : String) (h : p ≠ q) :
    (fs.remove p).get q = fs.get q := lookupFD_removeFD_ne fs.files p q h

theorem FS.lockHeld_set {α : Type} (fs : FS α) (p : String) (d : FileData α) :
    (fs.set p d).lockHeld = fs.lockHeld := rfl

theorem FS.lockHeld_remove {α : Type} (fs : FS α) (p : String) :
    (fs.remove p).lockHeld = fs.lockHeld := rfl

theorem FS.get_rename_dst {α : Type} (fs : FS α) (src dst : String) (d : FileData α)
    (h : fs.get src = some d) : (fs.rename src dst).get dst = some d := by
  simp [FS.rename, h, FS.get_set_self]

theorem FS.get_rename_src {α : Type} (fs : FS α) (src dst : String) (d : FileData α)
    (h : fs.get src = some d) (hne : dst ≠ src) : (fs.rename src dst).get src = none := by
  simp only [FS.rename, h]
  rw [FS.get_set_ne _ _ _ _ hne, FS.get_remove_self]

theorem FS.get_rename_other {α : Type} (fs : FS α) (src dst q : String)
    (h1 : src ≠ q) (h2 : dst ≠ q) : (fs.rename src dst).get q = fs.get q := by
  simp only [FS.rename]
  cases hg : fs.get src with
  | none => rfl
  | some d => rw [FS.get_set_ne _ _ _ _ h2, FS.get_remove_ne _ _ _ h1]

theorem FS.lockHeld_rename {α : Type} (fs : FS α) (src dst : String) :
    (fs.rename src dst).lockHeld = fs.lockHeld := by
  simp only [FS.rename]
  cases fs.get src <;> rfl

/-- The staging path and the live path of the same directory differ (their
lengths differ). -/
theorem fjoin_tmp_ne_db (path : String) :
    fjoin path DBTempFileName ≠ fjoin path DBFileName := by
  intro h
  have hl := congrArg String.length h
  simp [fjoin, DBTempFileName, DBFileName, String.length_append] at hl
  exact absurd hl (by decide)

/-- Every error produced by the shared open-and-decode phase is either the
raw `os.Open` error or the wrapped unmarshal error. -/
theorem openAndDecode_error_cases {α : Type} (f : Faults) (fs : FS α) (p : String)
    (e : DBError) (h : openAndDecode f fs p = .error e) :
    e = .ioOpen ∨ e = .unmarshal := by
  unfold openAndDecode at h
  cases hg : fs.get p with
  | none => simp [hg] at h; exact Or.inl h.symm
  | some d =>
    by_cases ho : f.openErr
    · simp [hg, ho] at h; exact Or.inl h.symm
    · cases hd : decodeDB f d with
      | none => simp [hg, ho, hd] at h; exact Or.inr h.symm
      | some q => simp [hg, ho, hd] at h

/-! ### Claim theorems -/

/-- C8: for every path that is not absolute, both `Open` and `Init` fail
with the distinguished error `ErrNeedAbsPath` and perform no filesystem
mutation before returning: the filesystem is returned unchanged (no lock
acquired, no file created or touched) and the event trace is empty. -/
theorem open_init_reject_relative_path {α : Type} (f : Faults) (env : Env) (v : α)
    (path : String) (fs : FS α) (h : isAbs path = false) :
    Open f path fs = ⟨.err .needAbsPath, fs, []⟩ ∧
    Init f env v path fs = ⟨some .needAbsPath, fs, []⟩ := by
  constructor
  · simp [Open, h]
  · simp [Init, h]

theorem open_init_reject_relative_path_witness :
    isAbs "relative/dir" = false ∧
    Open noFaults "relative/dir" (⟨[], false⟩ : FS Nat) =
      ⟨.err .needAbsPath, ⟨[], false⟩, []⟩ ∧
    Init noFaults ⟨"v0", "c0", none, 0⟩ (7 : Nat) "relative/dir" ⟨[], false⟩ =
      ⟨some .needAbsPath, ⟨[], false⟩, []⟩ :=
  ⟨by decide,
   (open_init_reject_relative_path noFaults ⟨"v0", "c0", none, 0⟩ 7 "relative/dir"
      ⟨[], false⟩ (by decide)).1,
   (open_init_reject_relative_path noFaults ⟨"v0", "c0", none, 0⟩ 7 "relative/dir"
      ⟨[], false⟩ (by decide)).2⟩

/-- C10: `Read` performs no absolute-path check: for every path, absolute
or relative, it never returns `ErrNeedAbsPath`; it returns the raw open
error when the file at the joined (possibly relative) path is missing, and
the decoded payload when that file holds a well-formed envelope and
neither open nor decode fails. -/
theorem read_no_abs_path_check {α : Type} (f : Faults) (path : String) (fs : FS α) :
    Read f path fs ≠ .error .needAbsPath ∧
    (fs.get (fjoin path DBFileName) = none → Read f path fs = .error .ioOpen) ∧
    (∀ (ver com : String) (uid : Option String) (t : Nat) (w : α),
      fs.get (fjoin path DBFileName) = some (.envelope ver com uid t w) →
      f.openErr = false → f.decodeErr = false → Read f path fs = .ok w) := by
  refine ⟨?_, ?_, ?_⟩
  · simp only [Read, openAndDecode]
    cases hg : fs.get (fjoin path DBFileName) with
    | none => simp
    | some d =>
      by_cases ho : f.openErr
      · simp [ho]
      · cases hd : decodeDB f d with
        | none => simp [ho, hd]
        | some q => simp [ho, hd]
  · intro h
    simp [Read, openAndDecode, h]
  · intro ver com uid t w hg ho hd
    simp [Read, openAndDecode, hg, ho, decodeDB, hd]

theorem read_no_abs_path_check_witness :
    Read noFaults "rel/dir" (⟨[("rel/dir/data", .envelope "x" "y" none 0 (8 : Nat))], false⟩)
        ≠ .error .needAbsPath ∧
    Read noFaults "rel/dir" (⟨[], false⟩ : FS Nat) = .error .ioOpen ∧
    Read noFaults "rel/dir" (⟨[("rel/dir/data", .envelope "x" "y" none 0 (8 : Nat))], false⟩)
        = .ok 8 :=
  ⟨(read_no_abs_path_check noFaults "rel/dir"
      ⟨[("rel/dir/data", .envelope "x" "y" none 0 8)], false⟩).1,
   (read_no_abs_path_check noFaults "rel/dir" (⟨[], false⟩ : FS Nat)).2.1 (by decide),
   (read_no_abs_path_check noFaults "rel/dir"
      ⟨[("rel/dir/data", .envelope "x" "y" none 0 8)], false⟩).2.2 "x" "y" none 0 8
      (by decide) rfl rfl⟩

/-- C5: when the retries of `TryLockN` are exhausted because the lock is
held, `Open` returns the distinguished sentinel `ErrLockFailed` as an
ordinary error (never a panic), leaving the filesystem unchanged; an I/O
error from the lock-acquisition attempt instead surfaces as the hard
error wrapped with the operation's name (`acquire lock:`). -/
theorem open_lock_outcomes {α : Type} (f : Faults) (path : String) (fs : FS α)
    (habs : isAbs path = true) (hnew : f.lockNewErr = false) :
    (f.tryLockErr = false → fs.lockHeld = true →
      Open f path fs = ⟨.err .lockFailed, fs, [.tryLock false]⟩) ∧
    (f.tryLockErr = true →
      Open f path fs = ⟨.err .acquireLock, fs, [.tryLock false]⟩) ∧
    DBError.lockFailed.message = "could not acquire lock" ∧
    DBError.acquireLock.message = "acquire lock: <err>" := by
  refine ⟨?_, ?_, rfl, rfl⟩
  · intro ht hl
    simp [Open, habs, hnew, ht, hl]
  · intro ht
    simp [Open, habs, hnew, ht]

theorem open_lock_outcomes_witness :
    Open noFaults "/d" (⟨[], true⟩ : FS Nat) =
      ⟨.err .lockFailed, ⟨[], true⟩, [.tryLock false]⟩ ∧
    Open ⟨false, true, false, false, false, false, false, false, false⟩ "/d"
        (⟨[], false⟩ : FS Nat) =
      ⟨.err .acquireLock, ⟨[], false⟩, [.tryLock false]⟩ :=
  ⟨(open_lock_outcomes noFaults "/d" (⟨[], true⟩ : FS Nat) (by decide) rfl).1 rfl rfl,
   (open_lock_outcomes ⟨false, true, false, false, false, false, false, false, false⟩
      "/d" (⟨[], false⟩ : FS Nat) (by decide) rfl).2.1 rfl⟩

/-- C4: invoking the commit function a second time — whatever the first
invocation's argument and outcome, and whatever faults are injected —
panics, and before panicking performs no write, no rename and no lock
release: the filesystem passed to the second call is returned untouched
and the second call's event trace is empty. -/
theorem committer_second_call_panics {α : Type} (f1 f2 : Faults) (e1 e2 : Env)
    (fs1 fs2 : FS α) (v1 v2 : Option α) (c : Committer) (h : c.done = false) :
    ((c.call f1 e1 fs1 v1).c).call f2 e2 fs2 v2 =
      ⟨.panicked, (c.call f1 e1 fs1 v1).c, fs2, []⟩ := by
  have hc : (c.call f1 e1 fs1 v1).c = { c with done := true } := by
    by_cases hu : f1.unlockErr <;> simp [Committer.call, h, finishCommit, hu]
  rw [hc]
  simp [Committer.call]

theorem committer_second_call_panics_witness :
    ((Committer.mk "/d" false).call noFaults ⟨"v", "c", none, 0⟩
        (⟨[], true⟩ : FS Nat) (some 1)).c.call noFaults ⟨"v", "c", none, 0⟩
        (⟨[], true⟩ : FS Nat) (some 2) =
      ⟨.panicked, ⟨"/d", true⟩, ⟨[], true⟩, []⟩ :=
  committer_second_call_panics noFaults noFaults ⟨"v", "c", none, 0⟩ ⟨"v", "c", none, 0⟩
    (⟨[], true⟩ : FS Nat) (⟨[], true⟩ : FS Nat) (some 1) (some 2) ⟨"/d", false⟩ rfl

/-- C9: on a directory that already holds a database file, `Init` (with no
I/O failures) succeeds without acquiring the lock: the event trace shows a
direct create/encode/sync of the live path with no lock attempt, no temp
file and no rename; the prior contents are silently replaced in place, the
temp path is untouched, and the lock's held-state — possibly held by
another process — is left exactly as it was. -/
theorem init_overwrites_existing_without_lock {α : Type} (env : Env) (v : α)
    (path : String) (fs : FS α) (d : FileData α) (habs : isAbs path = true)
    (_hex : fs.get (fjoin path DBFileName) = some d) :
    (Init noFaults env v path fs).res = none ∧
    (Init noFaults env v path fs).fs.get (fjoin path DBFileName) = some (getDBObj env v) ∧
    (Init noFaults env v path fs).fs.lockHeld = fs.lockHeld ∧
    (Init noFaults env v path fs).fs.get (fjoin path DBTempFileName) =
      fs.get (fjoin path DBTempFileName) ∧
    (Init noFaults env v path fs).trace =
      [.create (fjoin path DBFileName) true, .encode (fjoin path DBFileName) true,
       .sync (fjoin path DBFileName) true] := by
  have hne : fjoin path DBFileName ≠ fjoin path DBTempFileName :=
    Ne.symm (fjoin_tmp_ne_db path)
  refine ⟨by simp [Init, habs, noFaults], ?_, ?_, ?_, by simp [Init, habs, noFaults]⟩
  · simp [Init, habs, noFaults, FS.get_set_self]
  · simp [Init, habs, noFaults, FS.lockHeld_set]
  · simp [Init, habs, noFaults, FS.get_set_ne _ _ _ _ hne]

theorem init_overwrites_existing_without_lock_witness :
    isAbs "/d" = true ∧
    (FS.get (⟨[("/d/data", .envelope "old" "old" none 0 (1 : Nat))], true⟩ : FS Nat)
        (fjoin "/d" DBFileName) = some (.envelope "old" "old" none 0 1)) ∧
    (Init noFaults ⟨"v1", "c1", some "77", 5⟩ (2 : Nat) "/d"
        ⟨[("/d/data", .envelope "old" "old" none 0 1)], true⟩).res = none ∧
    (Init noFaults ⟨"v1", "c1", some "77", 5⟩ (2 : Nat) "/d"
        ⟨[("/d/data", .envelope "old" "old" none 0 1)], true⟩).fs.get
        (fjoin "/d" DBFileName) = some (.envelope "v1" "c1" (some "77") 5 2) ∧
    (Init noFaults ⟨"v1", "c1", some "77", 5⟩ (2 : Nat) "/d"
        ⟨[("/d/data", .envelope "old" "old" none 0 1)], true⟩).fs.lockHeld = true :=
  ⟨by decide, by decide,
   (init_overwrites_existing_without_lock ⟨"v1", "c1", some "77", 5⟩ 2 "/d"
      ⟨[("/d/data", .envelope "old" "old" none 0 1)], true⟩
      (.envelope "old" "old" none 0 1) (by decide) (by decide)).1,
   (init_overwrites_existing_without_lock ⟨"v1", "c1", some "77", 5⟩ 2 "/d"
      ⟨[("/d/data", .envelope "old" "old" none 0 1)], true⟩
      (.envelope "old" "old" none 0 1) (by decide) (by decide)).2.1,
   (init_overwrites_existing_without_lock ⟨"v1", "c1", some "77", 5⟩ 2 "/d"
      ⟨[("/d/data", .envelope "old" "old" none 0 1)], true⟩
      (.envelope "old" "old" none 0 1) (by decide) (by decide)).2.2.1⟩

/-- C7: for every payload value `v` and absolute directory, `Init v`
followed by `Read` yields exactly `v` back; and the envelope metadata is
ignored on read: whatever version, commit, uid and time a stored envelope
carries, `Read` succeeds and returns its payload. -/
theorem init_read_roundtrip {α : Type} (env : Env) (v : α) (path : String)
    (fs fs2 : FS α) (ver com : String) (uid : Option String) (t : Nat) (w : α)
    (habs : isAbs path = true)
    (hmeta : fs2.get (fjoin path DBFileName) = some (.envelope ver com uid t w)) :
    (Init noFaults env v path fs).res = none ∧
    Read noFaults path (Init noFaults env v path fs).fs = .ok v ∧
    Read noFaults path fs2 = .ok w := by
  refine ⟨by simp [Init, habs, noFaults], ?_, ?_⟩
  · have hget : (Init noFaults env v path fs).fs.get (fjoin path DBFileName) =
        some (getDBObj env v) := by
      simp [Init, habs, noFaults, FS.get_set_self]
    simp only [Read, openAndDecode, hget]
    simp [getDBObj, decodeDB, noFaults]
  · simp [Read, openAndDecode, hmeta, decodeDB, noFaults]

theorem init_read_roundtrip_witness :
    isAbs "/c1" = true ∧
    (FS.get (⟨[("/c1/data", .envelope "9.9" "zzz" (some "0") 1 (33 : Nat))], false⟩ : FS Nat)
        (fjoin "/c1" DBFileName) = some (.envelope "9.9" "zzz" (some "0") 1 33)) ∧
    (Init noFaults ⟨"v2", "c2", none, 4⟩ (10 : Nat) "/c1" (⟨[], false⟩ : FS Nat)).res = none ∧
    Read noFaults "/c1"
        (Init noFaults ⟨"v2", "c2", none, 4⟩ (10 : Nat) "/c1" (⟨[], false⟩ : FS Nat)).fs
      = .ok 10 ∧
    Read noFaults "/c1"
        (⟨[("/c1/data", .envelope "9.9" "zzz" (some "0") 1 (33 : Nat))], false⟩ : FS Nat)
      = .ok 33 :=
  ⟨by decide, by decide,
   (init_read_roundtrip ⟨"v2", "c2", none, 4⟩ 10 "/c1" (⟨[], false⟩ : FS Nat)
      ⟨[("/c1/data", .envelope "9.9" "zzz" (some "0") 1 33)], false⟩
      "9.9" "zzz" (some "0") 1 33 (by decide) (by decide)).1,
   (init_read_roundtrip ⟨"v2", "c2", none, 4⟩ 10 "/c1" (⟨[], false⟩ : FS Nat)
      ⟨[("/c1/data", .envelope "9.9" "zzz" (some "0") 1 33)], false⟩
      "9.9" "zzz" (some "0") 1 33 (by decide) (by decide)).2.1,
   (init_read_roundtrip ⟨"v2", "c2", none, 4⟩ 10 "/c1" (⟨[], false⟩ : FS Nat)
      ⟨[("/c1/data", .envelope "9.9" "zzz" (some "0") 1 33)], false⟩
      "9.9" "zzz" (some "0") 1 33 (by decide) (by decide)).2.2⟩

/-- C2: when a commit of a non-nil value fails at temp-file creation,
serialization, sync, or rename, the commit function returns an error, the
live document file is exactly as it was before the call (only the temp
file may have been written), and the lock has still been released before
the commit function returns. -/
theorem commit_failure_leaves_live_untouched {α : Type} (f : Faults) (env : Env)
    (fs : FS α) (x : α) (c : Committer)
    (hdone : c.done = false) (hunlock : f.unlockErr = false)
    (hfail : f.createErr = true ∨ f.encodeErr = true ∨ f.syncErr = true ∨
      f.renameErr = true) :
    (∃ e : DBError, (c.call f env fs (some x)).res = .ret (some e)) ∧
    (c.call f env fs (some x)).fs.get (fjoin c.path DBFileName) =
      fs.get (fjoin c.path DBFileName) ∧
    (c.call f env fs (some x)).fs.lockHeld = false := by
  have hne : fjoin c.path DBTempFileName ≠ fjoin c.path DBFileName :=
    fjoin_tmp_ne_db c.path
  obtain ⟨b1, b2, b3, b4, bc, be, bs, br, bu⟩ := f
  cases bu with
  | true => exact absurd hunlock (by simp)
  | false =>
    cases bc <;> cases be <;> cases bs <;> cases br <;>
      simp_all [Committer.call, writePhase, finishCommit, hdone,
        FS.get, FS.set, lookupFD_setFD_ne]

theorem commit_failure_leaves_live_untouched_witness :
    ((Committer.mk "/d" false).done = false) ∧
    (∃ e : DBError,
      ((Committer.mk "/d" false).call ⟨false, false, false, false, false, false, false,
          true, false⟩ ⟨"v", "c", none, 0⟩
          (⟨[("/d/data", .envelope "o" "o" none 0 (1 : Nat))], true⟩ : FS Nat)
          (some 2)).res = .ret (some e)) ∧
    ((Committer.mk "/d" false).call ⟨false, false, false, false, false, false, false,
        true, false⟩ ⟨"v", "c", none, 0⟩
        (⟨[("/d/data", .envelope "o" "o" none 0 (1 : Nat))], true⟩ : FS Nat)
        (some 2)).fs.get (fjoin "/d" DBFileName) =
      FS.get (⟨[("/d/data", .envelope "o" "o" none 0 (1 : Nat))], true⟩ : FS Nat)
        (fjoin "/d" DBFileName) ∧
    ((Committer.mk "/d" false).call ⟨false, false, false, false, false, false, false,
        true, false⟩ ⟨"v", "c", none, 0⟩
        (⟨[("/d/data", .envelope "o" "o" none 0 (1 : Nat))], true⟩ : FS Nat)
        (some 2)).fs.lockHeld = false :=
  ⟨rfl,
   (commit_failure_leaves_live_untouched
      ⟨false, false, false, false, false, false, false, true, false⟩ ⟨"v", "c", none, 0⟩
      (⟨[("/d/data", .envelope "o" "o" none 0 1)], true⟩ : FS Nat) 2 ⟨"/d", false⟩
      rfl rfl (Or.inr (Or.inr (Or.inr rfl)))).1,
   (commit_failure_leaves_live_untouched
      ⟨false, false, false, false, false, false, false, true, false⟩ ⟨"v", "c", none, 0⟩
      (⟨[("/d/data", .envelope "o" "o" none 0 1)], true⟩ : FS Nat) 2 ⟨"/d", false⟩
      rfl rfl (Or.inr (Or.inr (Or.inr rfl)))).2.1,
   (commit_failure_leaves_live_untouched
      ⟨false, false, false, false, false, false, false, true, false⟩ ⟨"v", "c", none, 0⟩
      (⟨[("/d/data", .envelope "o" "o" none 0 1)], true⟩ : FS Nat) 2 ⟨"/d", false⟩
      rfl rfl (Or.inr (Or.inr (Or.inr rfl)))).2.2⟩

/-- C6: a lock-release failure is reported as the commit's returned error
only when the commit otherwise succeeded.  Each write-phase failure
(create, encode, sync, rename) is returned as-is no matter whether the
subsequent unlock also fails; when the write phase succeeds — or no write
was requested (`nil` value) — and the unlock fails, the unlock failure is
returned rather than swallowed; and with no failures at all the commit
returns no error. -/
theorem commit_unlock_error_precedence {α : Type} (f : Faults) (env : Env)
    (fs : FS α) (x : α) (c : Committer) (hdone : c.done = false) :
    (f.createErr = true →
      (c.call f env fs (some x)).res = .ret (some .ioCreate)) ∧
    (f.createErr = false → f.encodeErr = true →
      (c.call f env fs (some x)).res = .ret (some .marshalEncode)) ∧
    (f.createErr = false → f.encodeErr = false → f.syncErr = true →
      (c.call f env fs (some x)).res = .ret (some .marshalSync)) ∧
    (f.createErr = false → f.encodeErr = false → f.syncErr = false →
      f.renameErr = true →
      (c.call f env fs (some x)).res = .ret (some .atomicUpdate)) ∧
    (f.createErr = false → f.encodeErr = false → f.syncErr = false →
      f.renameErr = false → f.unlockErr = true →
      (c.call f env fs (some x)).res = .ret (some .releaseLock)) ∧
    (f.unlockErr = true →
      (c.call f env fs (none : Option α)).res = .ret (some .releaseLock)) ∧
    (f.createErr = false → f.encodeErr = false → f.syncErr = false →
      f.renameErr = false → f.unlockErr = false →
      (c.call f env fs (some x)).res = .ret none) := by
  obtain ⟨b1, b2, b3, b4, bc, be, bs, br, bu⟩ := f
  refine ⟨?_, ?_, ?_, ?_, ?_, ?_, ?_⟩ <;> intros <;>
    cases bu <;> cases bc <;> cases be <;> cases bs <;> cases br <;>
    simp_all [Committer.call, writePhase, finishCommit, hdone]

theorem commit_unlock_error_precedence_witness :
    ((Committer.mk "/d" false).call ⟨false, false, false, false, false, false, false,
        true, true⟩ ⟨"v", "c", none, 0⟩ (⟨[], true⟩ : FS Nat) (some 2)).res =
      .ret (some .atomicUpdate) ∧
    ((Committer.mk "/d" false).call ⟨false, false, false, false, false, false, false,
        false, true⟩ ⟨"v", "c", none, 0⟩ (⟨[], true⟩ : FS Nat) (some 2)).res =
      .ret (some .releaseLock) ∧
    ((Committer.mk "/d" false).call ⟨false, false, false, false, false, false, false,
        false, true⟩ ⟨"v", "c", none, 0⟩ (⟨[], true⟩ : FS Nat) (none : Option Nat)).res =
      .ret (some .releaseLock) ∧
    ((Committer.mk "/d" false).call noFaults ⟨"v", "c", none, 0⟩
        (⟨[], true⟩ : FS Nat) (some 2)).res = .ret none :=
  ⟨(commit_unlock_error_precedence
      ⟨false, false, false, false, false, false, false, true, true⟩ ⟨"v", "c", none, 0⟩
      (⟨[], true⟩ : FS Nat) 2 ⟨"/d", false⟩ rfl).2.2.2.1 rfl rfl rfl rfl,
   (commit_unlock_error_precedence
      ⟨false, false, false, false, false, false, false, false, true⟩ ⟨"v", "c", none, 0⟩
      (⟨[], true⟩ : FS Nat) 2 ⟨"/d", false⟩ rfl).2.2.2.2.1 rfl rfl rfl rfl rfl,
   (commit_unlock_error_precedence
      ⟨false, false, false, false, false, false, false, false, true⟩ ⟨"v", "c", none, 0⟩
      (⟨[], true⟩ : FS Nat) 2 ⟨"/d", false⟩ rfl).2.2.2.2.2.1 rfl,
   (commit_unlock_error_precedence noFaults ⟨"v", "c", none, 0⟩
      (⟨[], true⟩ : FS Nat) 2 ⟨"/d", false⟩ rfl).2.2.2.2.2.2 rfl rfl rfl rfl rfl⟩

/-- An `Open` on a directory whose lock is not held never reports
`ErrLockFailed` (with no I/O error injected on the lock attempt). -/
theorem open_not_lockfailed_of_unlocked {α : Type} (f : Faults) (path : String)
    (fs : FS α) (h : fs.lockHeld = false) (h2 : f.tryLockErr = false) :
    (Open f path fs).res ≠ .err .lockFailed := by
  cases habs : isAbs path with
  | false => simp [Open, habs]
  | true =>
    cases hb : f.lockNewErr with
    | true => simp [Open, habs, hb]
    | false =>
      rcases hod : openAndDecode f { fs with lockHeld := true } (fjoin path DBFileName)
        with e2 | p2
      · have hcases := openAndDecode_error_cases _ _ _ _ hod
        rcases hcases with rfl | rfl <;> simp [Open, habs, hb, h2, h, hod]
      · simp [Open, habs, hb, h2, h, hod]

/-- C3: whenever `Open` has acquired the lock and then fails — the live
document cannot be opened (`ioOpen`) or does not deserialize
(`unmarshal`) — the just-acquired lock is released before `Open` returns,
and a subsequent `Open` on the resulting state is not turned away with
`ErrLockFailed` by a leaked lock. -/
theorem open_error_releases_lock {α : Type} (f : Faults) (path : String) (fs : FS α)
    (e : DBError) (hunlock : f.unlockErr = false)
    (hres : (Open f path fs).res = .err e)
    (he : e = .ioOpen ∨ e = .unmarshal) :
    (Open f path fs).fs.lockHeld = false ∧
    (Open noFaults path (Open f path fs).fs).res ≠ .err .lockFailed := by
  cases habs : isAbs path with
  | false => rcases he with rfl | rfl <;> simp [Open, habs] at hres
  | true =>
    cases hb1 : f.lockNewErr with
    | true => simp [Open, habs, hb1] at hres
    | false =>
      cases hb2 : f.tryLockErr with
      | true => rcases he with rfl | rfl <;> simp [Open, habs, hb1, hb2] at hres
      | false =>
        cases hlh : fs.lockHeld with
        | true => rcases he with rfl | rfl <;> simp [Open, habs, hb1, hb2, hlh] at hres
        | false =>
          rcases hod : openAndDecode f { fs with lockHeld := true } (fjoin path DBFileName)
            with e2 | p2
          · have hopen : Open f path fs =
                ⟨.err e2, { fs with lockHeld := false }, [.tryLock true, .unlock true]⟩ := by
              simp [Open, habs, hb1, hb2, hlh, hod, unlockFS, hunlock]
            rw [hopen]
            exact ⟨rfl, open_not_lockfailed_of_unlocked noFaults path _ rfl rfl⟩
          · simp [Open, habs, hb1, hb2, hlh, hod] at hres

theorem open_error_releases_lock_witness :
    (Open noFaults "/d" (⟨[], false⟩ : FS Nat)).res = .err .ioOpen ∧
    (Open noFaults "/d" (⟨[], false⟩ : FS Nat)).fs.lockHeld = false ∧
    (Open noFaults "/d" (Open noFaults "/d" (⟨[], false⟩ : FS Nat)).fs).res ≠
      .err .lockFailed :=
  ⟨by decide,
   (open_error_releases_lock noFaults "/d" (⟨[], false⟩ : FS Nat) .ioOpen rfl
      (by decide) (Or.inl rfl)).1,
   (open_error_releases_lock noFaults "/d" (⟨[], false⟩ : FS Nat) .ioOpen rfl
      (by decide) (Or.inl rfl)).2⟩

/-- A successful `Open` hands back the committer closure for its own
directory with the one-shot flag still unset. -/
theorem Open_ok_inv {α : Type} (f : Faults) (path : String) (fs : FS α)
    (t : α) (c : Committer) (fs1 : FS α) (tr : List Ev)
    (h : Open f path fs = ⟨.ok t c, fs1, tr⟩) : c = ⟨path, false⟩ := by
  cases habs : isAbs path with
  | false => simp [Open, habs] at h
  | true =>
    cases hb1 : f.lockNewErr with
    | true => simp [Open, habs, hb1] at h
    | false =>
      cases hb2 : f.tryLockErr with
      | true => simp [Open, habs, hb1, hb2] at h
      | false =>
        cases hlh : fs.lockHeld with
        | true => simp [Open, habs, hb1, hb2, hlh] at h
        | false =>
          rcases hod : openAndDecode f { fs with lockHeld := true } (fjoin path DBFileName)
            with e2 | p2
          · simp [Open, habs, hb1, hb2, hlh, hod] at h
          · simp [Open, habs, hb1, hb2, hlh, hod] at h
            exact h.1.2.symm

set_option maxHeartbeats 1000000 in
/-- C1: for every transaction opened by `Open`, invoking the returned
commit function with a non-nil value (and no I/O failures) serializes the
envelope — the value wrapped with version, commit, the acting user's UID
when resolvable, and the timestamp — to the temp path, syncs it, and
atomically renames it over the live path; the trace shows create, encode,
sync, rename, and only then the unlock; moreover, under every fault
pattern, a rename is ever attempted only after a successful sync of the
temp path (never on an unsynced file). -/
theorem open_commit_success {α : Type} (f0 : Faults) (env : Env) (path : String)
    (fs0 fs1 : FS α) (t : α) (c : Committer) (tr : List Ev)
    (hopen : Open f0 path fs0 = ⟨.ok t c, fs1, tr⟩) (x : α) :
    (c.call noFaults env fs1 (some x)).res = .ret none ∧
    (c.call noFaults env fs1 (some x)).fs.get (fjoin path DBFileName) =
      some (.envelope env.version env.commit env.uid env.now x) ∧
    (c.call noFaults env fs1 (some x)).fs.get (fjoin path DBTempFileName) = none ∧
    (c.call noFaults env fs1 (some x)).fs.lockHeld = false ∧
    (c.call noFaults env fs1 (some x)).trace =
      [.create (fjoin path DBTempFileName) true, .encode (fjoin path DBTempFileName) true,
       .sync (fjoin path DBTempFileName) true,
       .rename (fjoin path DBTempFileName) (fjoin path DBFileName) true, .unlock true] ∧
    (∀ (f2 : Faults) (env2 : Env) (fs2 : FS α) (y : α) (b : Bool),
      Ev.rename (fjoin path DBTempFileName) (fjoin path DBFileName) b ∈
        (c.call f2 env2 fs2 (some y)).trace →
      (c.call f2 env2 fs2 (some y)).trace =
        [.create (fjoin path DBTempFileName) true, .encode (fjoin path DBTempFileName) true,
         .sync (fjoin path DBTempFileName) true,
         .rename (fjoin path DBTempFileName) (fjoin path DBFileName) b,
         .unlock (!f2.unlockErr)]) := by
  have hc : c = ⟨path, false⟩ := Open_ok_inv f0 path fs0 t c fs1 tr hopen
  subst hc
  have hne : fjoin path DBTempFileName ≠ fjoin path DBFileName := fjoin_tmp_ne_db path
  have hobj : ((fs1.set (fjoin path DBTempFileName) .empty).set (fjoin path DBTempFileName)
      (getDBObj env x)).get (fjoin path DBTempFileName) = some (getDBObj env x) :=
    FS.get_set_self _ _ _
  have hw : ((Committer.mk path false).call noFaults env fs1 (some x)).fs =
      { ((fs1.set (fjoin path DBTempFileName) .empty).set (fjoin path DBTempFileName)
          (getDBObj env x)).rename (fjoin path DBTempFileName) (fjoin path DBFileName)
        with lockHeld := false } := by
    simp [Committer.call, writePhase, finishCommit, noFaults]
  refine ⟨?_, ?_, ?_, ?_, ?_, ?_⟩
  · simp [Committer.call, writePhase, finishCommit, noFaults]
  · rw [hw]
    show (((fs1.set (fjoin path DBTempFileName) .empty).set (fjoin path DBTempFileName)
        (getDBObj env x)).rename (fjoin path DBTempFileName)
        (fjoin path DBFileName)).get (fjoin path DBFileName) =
      some (.envelope env.version env.commit env.uid env.now x)
    rw [FS.get_rename_dst _ _ _ _ hobj]
    rfl
  · rw [hw]
    show (((fs1.set (fjoin path DBTempFileName) .empty).set (fjoin path DBTempFileName)
        (getDBObj env x)).rename (fjoin path DBTempFileName)
        (fjoin path DBFileName)).get (fjoin path DBTempFileName) = none
    exact FS.get_rename_src _ _ _ _ hobj (Ne.symm hne)
  · rw [hw]
  · simp [Committer.call, writePhase, finishCommit, noFaults]
  · intro f2 env2 fs2 y b hmem
    clear hopen hobj hw
    obtain ⟨g1, g2, g3, g4, gc, ge, gs, gr, gu⟩ := f2
    cases gc <;> cases ge <;> cases gs <;> cases gr <;> cases gu <;>
      simp_all [Committer.call, writePhase, finishCommit]

theorem open_commit_success_witness :
    Open noFaults "/d" (⟨[("/d/data", .envelope "v" "c" none 0 (42 : Nat))], false⟩) =
      ⟨.ok 42 ⟨"/d", false⟩, ⟨[("/d/data", .envelope "v" "c" none 0 42)], true⟩,
       [.tryLock true]⟩ ∧
    ((Committer.mk "/d" false).call noFaults ⟨"1.0", "abc", some "501", 9⟩
        (⟨[("/d/data", .envelope "v" "c" none 0 (42 : Nat))], true⟩) (some 7)).res =
      .ret none ∧
    ((Committer.mk "/d" false).call noFaults ⟨"1.0", "abc", some "501", 9⟩
        (⟨[("/d/data", .envelope "v" "c" none 0 (42 : Nat))], true⟩) (some 7)).fs.get
        (fjoin "/d" DBFileName) = some (.envelope "1.0" "abc" (some "501") 9 7) ∧
    ((Committer.mk "/d" false).call noFaults ⟨"1.0", "abc", some "501", 9⟩
        (⟨[("/d/data", .envelope "v" "c" none 0 (42 : Nat))], true⟩) (some 7)).fs.lockHeld =
      false ∧
    ((Committer.mk "/d" false).call noFaults ⟨"1.0", "abc", some "501", 9⟩
        (⟨[("/d/data", .envelope "v" "c" none 0 (42 : Nat))], true⟩) (some 7)).trace =
      [.create (fjoin "/d" DBTempFileName) true, .encode (fjoin "/d" DBTempFileName) true,
       .sync (fjoin "/d" DBTempFileName) true,
       .rename (fjoin "/d" DBTempFileName) (fjoin "/d" DBFileName) true, .unlock true] :=
  ⟨by decide,
   (open_commit_success noFaults ⟨"1.0", "abc", some "501", 9⟩ "/d"
      ⟨[("/d/data", .envelope "v" "c" none 0 42)], false⟩
      ⟨[("/d/data", .envelope "v" "c" none 0 42)], true⟩ 42 ⟨"/d", false⟩ [.tryLock true]
      (by decide) 7).1,
   (open_commit_success noFaults ⟨"1.0", "abc", some "501", 9⟩ "/d"
      ⟨[("/d/data", .envelope "v" "c" none 0 42)], false⟩
      ⟨[("/d/data", .envelope "v" "c" none 0 42)], true⟩ 42 ⟨"/d", false⟩ [.tryLock true]
      (by decide) 7).2.1,
   (open_commit_success noFaults ⟨"1.0", "abc", some "501", 9⟩ "/d"
      ⟨[("/d/data", .envelope "v" "c" none 0 42)], false⟩
      ⟨[("/d/data", .envelope "v" "c" none 0 42)], true⟩ 42 ⟨"/d", false⟩ [.tryLock true]
      (by decide) 7).2.2.2.1,
   (open_commit_success noFaults ⟨"1.0", "abc", some "501", 9⟩ "/d"
      ⟨[("/d/data", .envelope "v" "c" none 0 42)], false⟩
      ⟨[("/d/data", .envelope "v" "c" none 0 42)], true⟩ 42 ⟨"/d", false⟩ [.tryLock true]
      (by decide) 7).2.2.2.2.1⟩

end KudosDB
